import Mathlib

/-!
Blog posts router.

A shallow embedding of `blogPostsRouter.js`: the four route handlers of the
blog-post resource (`GET /`, `POST /`, `DELETE /:id`, `PUT /:id`), the request
bodies they inspect, and the `BlogPosts` store they call.

The handlers are embedded from `blogPostsRouter.js`.  The store itself lives in
`models.js`, which is not part of the sources at hand; its four operations are
modelled from the specification and marked as such.
-/

set_option autoImplicit false

namespace BlogApi

/-! ## Request bodies -/

/-- A value produced by `JSON.parse`, as `bodyParser.json()` hands it to a
handler.  A number is carried by the text that `Number.prototype.toString`
gives for the double parsed (`5`, `1.5`, `1e+21`): the handlers never compute
with a number of the body, they only compare it with a string, which is false
for every number, print it in a message, or pass it on. -/
inductive Json where
  | null
  | bool (b : Bool)
  | num (text : String)
  | str (s : String)
  | arr (items : List Json)
  | obj (fields : List (String × Json))

/-- A JavaScript value read out of a parsed body: `none` is `undefined`, the
result of reading a property the object does not have. -/
abbrev JsVal := Option Json

/-- The parsed request body `req.body`: the properties of the object, each
listed once under its name.  (An array body is an object whose own properties
are its indices and `length`; none of those is a name the handlers look up.) -/
abbrev Body := List (String × Json)

/-- The test `field in req.body`, for a field name that no prototype defines. -/
def hasField (field : String) (body : Body) : Bool :=
  body.any (fun kv => kv.1 == field)

/-- The property read `req.body.field`: `undefined` when the property is absent. -/
def getField (field : String) (body : Body) : JsVal :=
  (body.find? (fun kv => kv.1 == field)).map (fun kv => kv.2)

mutual
/-- The conversion `ToString` that a template literal applies to a JSON value,
`none` when it throws a `TypeError`.  An object is converted by its `toString`
method and then its `valueOf` method: an own property `toString` of a parsed
object is never a function and `valueOf` does not yield a primitive, so the
conversion throws; without such a property `Object.prototype.toString` gives
`[object Object]`.  An array is converted by `Array.prototype.join`. -/
def Json.toStr : Json → Option String
  | .null => some "null"
  | .bool true => some "true"
  | .bool false => some "false"
  | .num text => some text
  | .str s => some s
  | .arr items => Json.joinItems items
  | .obj fields =>
    if fields.any (fun kv => kv.1 == "toString") then none else some "[object Object]"
/-- The body of `Array.prototype.join` with the separator `,`: a `null` element
prints as the empty string, any other element by `ToString`, which may throw. -/
def Json.joinItems : List Json → Option String
  | [] => some ""
  | [.null] => some ""
  | [x] => Json.toStr x
  | .null :: rest => (Json.joinItems rest).map (fun r => "," ++ r)
  | x :: rest =>
    match Json.toStr x, Json.joinItems rest with
    | some a, some r => some (a ++ "," ++ r)
    | _, _ => none
end

/-- The conversion `ToString` of a template literal on a JavaScript value,
`none` when it throws a `TypeError`; `undefined` prints as `undefined`. -/
def JsVal.toStr : JsVal → Option String
  | none => some "undefined"
  | some v => v.toStr

/-- The strict comparison `pathId !== v` of the source, negated: a string is
strictly equal only to the same string. -/
def strictEqStr (pathId : String) : JsVal → Bool
  | some (.str s) => pathId == s
  | _ => false

/-! ## Comparison of a number with a string or `undefined` -/

/-- The value of a string of decimal digits, `none` when another character occurs. -/
def digitsValue : List Char → Nat → Option Nat
  | [], acc => some acc
  | c :: cs, acc => if c.isDigit then digitsValue cs (10 * acc + (c.toNat - 48)) else none

/-- The conversion `ToNumber` on a string, `none` standing for `NaN`: surrounding
white space is dropped, the empty string is `0`, a string of decimal digits is
its value.  Signed, fractional, exponent and radix literals and `Infinity` are
numbers too and are not covered; no field name of the handlers is one. -/
def strToNumber (s : String) : Option Nat :=
  let t := ((s.data.dropWhile Char.isWhitespace).reverse.dropWhile Char.isWhitespace).reverse
  digitsValue t 0

/-- The loop condition `i < requiredFields[i]` of the POST handler: a number is
compared with an array element, a string or (past the end) `undefined`.  The
element is converted with `ToNumber`, and a comparison with `NaN` is false. -/
def jsLtIndexElem (i : Nat) : Option String → Bool
  | none => false
  | some s =>
    match strToNumber s with
    | none => false
    | some n => decide (i < n)

/-! ## Posts and the store -/

/-- A blog post as the store holds it.  The store does not validate what it is
given, so the three text fields hold whatever value the handler read. -/
structure Post where
  id : String
  title : JsVal
  content : JsVal
  author : JsVal
  publishDate : Nat

/-- The record the PUT handler builds for `BlogPosts.update`. -/
structure UpdateRecord where
  id : String
  title : JsVal
  content : JsVal
  author : JsVal

/-- Modelled from the spec: the state of the `BlogPosts` store of `models.js`,
an ordered collection of posts together with the monotonic counter that the
specification names as the source of fresh ids. -/
structure Store where
  posts : List Post
  nextId : Nat

/-- Modelled from the spec: the id that the counter value `n` stands for, its
decimal numeral (`models.js` is missing; the specification asks for a monotonic
counter or an equivalent source of unique ids). -/
def idOf (n : Nat) : String := toString n

/-- Modelled from the spec: the store of `models.js` before any post is created. -/
def Store.empty : Store := ⟨[], 0⟩

/-- Modelled from the spec: `create(title, content, author)` of the missing
`models.js` assigns a fresh id and the current time stamp, appends the post to
the ordered collection and returns it; it always succeeds. -/
def Store.create (title content author : JsVal) (now : Nat) (s : Store) : Post × Store :=
  let post : Post := ⟨idOf s.nextId, title, content, author, now⟩
  (post, ⟨s.posts ++ [post], s.nextId + 1⟩)

/-- Modelled from the spec: `get()` of the missing `models.js` returns all
posts in insertion order and has no side effect. -/
def Store.get (s : Store) : List Post := s.posts

/-- Replace title, content and author of the first post whose id is `r.id`. -/
def replaceFirst (r : UpdateRecord) : List Post → List Post
  | [] => []
  | p :: ps =>
    if p.id = r.id then
      { p with title := r.title, content := r.content, author := r.author } :: ps
    else p :: replaceFirst r ps

/-- Modelled from the spec: `update(post)` of the missing `models.js` locates
the existing entry by id and replaces its title, content and author in place,
leaving id and publish date; it is a silent no-op when no entry has that id. -/
def Store.update (r : UpdateRecord) (s : Store) : Store :=
  ⟨replaceFirst r s.posts, s.nextId⟩

/-- Remove the first post whose id is `id`. -/
def removeFirst (id : String) : List Post → List Post
  | [] => []
  | p :: ps => if p.id = id then ps else p :: removeFirst id ps

/-- Modelled from the spec: `delete(id)` of the missing `models.js` removes the
entry with the matching id if present, and is a no-op otherwise. -/
def Store.delete (id : String) (s : Store) : Store :=
  ⟨removeFirst id s.posts, s.nextId⟩

/-- The JSON object `res.json` sends for a post: `JSON.stringify` leaves out a
property whose value is `undefined`. -/
def Post.toJson (p : Post) : Body :=
  [("id", Json.str p.id)]
    ++ (p.title.map (fun v => ("title", v))).toList
    ++ (p.content.map (fun v => ("content", v))).toList
    ++ (p.author.map (fun v => ("author", v))).toList
    ++ [("publishDate", Json.num (toString p.publishDate))]

/-! ## The world a handler runs in -/

/-- One invocation of a method of `BlogPosts`, with its arguments. -/
inductive StoreCall where
  | create (title content author : JsVal)
  | get
  | update (r : UpdateRecord)
  | delete (id : String)

/-- One line written to the console. -/
inductive ConsoleLine where
  | log (message : String)
  | error (message : String)

/-- What a handler can read and change: the module-level `BlogPosts` store, the
console, and (as a record of what was invoked) the calls made on the store. -/
structure World where
  store : Store
  calls : List StoreCall
  console : List ConsoleLine

/-- The body of an HTTP response. -/
inductive ResBody where
  | empty
  | text (message : String)
  | jsonPost (item : Post)
  | jsonPosts (items : List Post)

/-- The response a handler sends: `res.status(n)` with `.send`, `.json` or
`.end`; `res.json` alone sends status 200. -/
structure Response where
  status : Nat
  body : ResBody

/-- An exception a handler throws. -/
inductive JsError where
  | typeError

/-- How the run of a handler ends: it sent a response, or it threw before
sending one. -/
inductive Outcome where
  | sent (res : Response)
  | threw (error : JsError)

/-- The status of the response sent, if one was sent. -/
def Outcome.status : Outcome → Option Nat
  | .sent res => some res.status
  | .threw _ => none

/-- The call `BlogPosts.create(title, content, author)`, made at clock reading `now`. -/
def BlogPosts.create (title content author : JsVal) (now : Nat) (w : World) : Post × World :=
  let r := Store.create title content author now w.store
  (r.1, { w with store := r.2, calls := w.calls ++ [StoreCall.create title content author] })

/-- The call `BlogPosts.get()`. -/
def BlogPosts.get (w : World) : List Post × World :=
  (Store.get w.store, { w with calls := w.calls ++ [StoreCall.get] })

/-- The call `BlogPosts.update(r)`. -/
def BlogPosts.update (r : UpdateRecord) (w : World) : World :=
  { w with store := Store.update r w.store, calls := w.calls ++ [StoreCall.update r] }

/-- The call `BlogPosts.delete(id)`. -/
def BlogPosts.delete (id : String) (w : World) : World :=
  { w with store := Store.delete id w.store, calls := w.calls ++ [StoreCall.delete id] }

/-- The call `console.log(message)`. -/
def consoleLog (message : String) (w : World) : World :=
  { w with console := w.console ++ [ConsoleLine.log message] }

/-- The call `console.error(message)`. -/
def consoleError (message : String) (w : World) : World :=
  { w with console := w.console ++ [ConsoleLine.error message] }

/-! ## The handlers of `blogPostsRouter.js` -/

/-- The array `requiredFields` of the POST and PUT handlers. -/
def requiredFields : List String := ["title", "content", "author"]

/-- The message of a missing field. -/
def missingMessage (field : String) : String :=
  "Missing `" ++ field ++ "` in request body"

/-- The message of the PUT handler when path id and body id differ, `bodyId`
being the text that the template literal prints for `req.body.id`. -/
def mismatchMessage (pathId : String) (bodyId : String) : String :=
  "Request path id (" ++ pathId ++ ") and request body id (" ++ bodyId ++ ") must match"

/-- The loop of the POST handler, `for (let i=0; i<requiredFields[i]; i++)`,
entered at index `i` with `rest` the elements of `requiredFields` from `i` on:
the field missing from the body at which the loop returns, or `none` when the
loop ends without returning.  The loop ends as soon as its condition
`i < requiredFields[i]` is false, which it is past the end of the array, where
the element is `undefined`. -/
def postLoop (body : Body) : Nat → List String → Option String
  | _, [] => none
  | i, field :: rest =>
    if jsLtIndexElem i (some field) then
      if !(hasField field body) then some field else postLoop body (i + 1) rest
    else none

/-- The loop of the PUT handler, `for (let i=0; i<requiredFields.length; i++)`,
over the elements `rest` still to visit: the first field missing from the body. -/
def putLoop (body : Body) : List String → Option String
  | [] => none
  | field :: rest => if !(hasField field body) then some field else putLoop body rest

/-- The handler of `GET /`: `res.json(BlogPosts.get())`. -/
def router.get (w : World) : Response × World :=
  let r := BlogPosts.get w
  (⟨200, ResBody.jsonPosts r.1⟩, r.2)

/-- The handler of `POST /`, run at clock reading `now` on the parsed body. -/
def router.post (now : Nat) (body : Body) (w : World) : Response × World :=
  match postLoop body 0 requiredFields with
  | some field =>
    let message := missingMessage field
    (⟨400, ResBody.text message⟩, consoleError message w)
  | none =>
    let r := BlogPosts.create (getField "title" body) (getField "content" body)
      (getField "author" body) now w
    (⟨201, ResBody.jsonPost r.1⟩, r.2)

/-- The handler of `DELETE /:id`, `pathId` being `req.params.id`. -/
def router.delete (pathId : String) (w : World) : Response × World :=
  let w1 := BlogPosts.delete pathId w
  let w2 := consoleLog ("Delete shopping list item `" ++ pathId ++ "`") w1
  (⟨204, ResBody.empty⟩, w2)

/-- The handler of `PUT /:id`, `pathId` being `req.params.id`.  The message of
an id mismatch is built by a template literal over `req.body.id` before
anything is printed or sent: when that conversion throws, the handler ends
there, the world as it found it. -/
def router.put (pathId : String) (body : Body) (w : World) : Outcome × World :=
  match putLoop body requiredFields with
  | some field =>
    let message := missingMessage field
    (Outcome.sent ⟨400, ResBody.text message⟩, consoleError message w)
  | none =>
    if !(strictEqStr pathId (getField "id" body)) then
      match JsVal.toStr (getField "id" body) with
      | none => (Outcome.threw JsError.typeError, w)
      | some bodyId =>
        let message := mismatchMessage pathId bodyId
        (Outcome.sent ⟨400, ResBody.text message⟩, consoleError message w)
    else
      let w1 := consoleLog ("Updating blog bost `" ++ pathId ++ "`") w
      let w2 := BlogPosts.update
        ⟨pathId, getField "title" body, getField "content" body, getField "author" body⟩ w1
      (Outcome.sent ⟨204, ResBody.empty⟩, w2)

/-- The world before the module is loaded: the empty store, nothing called or printed. -/
def World.initial : World := ⟨Store.empty, [], []⟩

/-- Loading the module at clock reading `now`: the top-level statement
`BlogPosts.create("How to learn code", ..., "Jane Doe")` seeds the store. -/
def moduleLoad (now : Nat) : World :=
  (BlogPosts.create (some (Json.str "How to learn code"))
    (some (Json.str "This is how you learn code. First, you learn it. Then, you do it"))
    (some (Json.str "Jane Doe")) now World.initial).2

/-! ## Sequences of requests -/

/-- A request to one of the four routes; a POST carries the clock reading at
which it is served. -/
inductive Request where
  | get
  | post (now : Nat) (body : Body)
  | put (pathId : String) (body : Body)
  | delete (pathId : String)

/-- Run the handler of one request. -/
def serve (req : Request) (w : World) : Outcome × World :=
  match req with
  | .get => (Outcome.sent (router.get w).1, (router.get w).2)
  | .post now body => (Outcome.sent (router.post now body w).1, (router.post now body w).2)
  | .put pathId body => router.put pathId body w
  | .delete pathId => (Outcome.sent (router.delete pathId w).1, (router.delete pathId w).2)

/-- Serve a sequence of requests in order, keeping the final world. -/
def serveAll : List Request → World → World
  | [], w => w
  | req :: rest, w => serveAll rest (serve req w).2

/-- The first required field absent from the body, in the order title,
content, author: the specification's reading of the field check. -/
def firstMissing (body : Body) : Option String :=
  requiredFields.find? (fun field => !(hasField field body))

/-- The body has all three required fields. -/
def complete (body : Body) : Prop :=
  hasField "title" body = true ∧ hasField "content" body = true ∧ hasField "author" body = true

instance (body : Body) : Decidable (complete body) := by
  unfold complete; infer_instance

/-- The ids of the posts of a store, in order. -/
def Store.ids (s : Store) : List String := s.posts.map (fun p => p.id)

/-! ## Notions used in the statements -/

/-- The five property names of the JSON representation of a post. -/
def postKeys : List String := ["id", "title", "content", "author", "publishDate"]

/-- The post `p` with the title, content and author given. -/
def Post.withText (p : Post) (title content author : JsVal) : Post :=
  { p with title := title, content := content, author := author }

/-- Every id in the store was drawn from a counter value below the current one. -/
def Store.Bounded (s : Store) : Prop :=
  ∀ x ∈ s.ids, ∃ n, n < s.nextId ∧ x = idOf n

/-- The number a list of decimal digit characters stands for, read from `acc` on. -/
def numeralValue (acc : Nat) (cs : List Char) : Nat :=
  cs.foldl (fun a c => 10 * a + (c.toNat - 48)) acc

/-! ## Lemmas on bodies and the field checks -/

theorem getField_of_hasField {field : String} {body : Body}
    (h : hasField field body = true) : ∃ v, getField field body = some v := by
  induction body with
  | nil => simp [hasField] at h
  | cons kv rest ih =>
    by_cases hk : (kv.1 == field) = true
    · exact ⟨kv.2, by simp [getField, List.find?, hk]⟩
    · have hk' : (kv.1 == field) = false := by simpa using hk
      have hr : hasField field rest = true := by
        simpa [hasField, List.any_cons, hk'] using h
      obtain ⟨v, hv⟩ := ih hr
      exact ⟨v, by simpa [getField, List.find?, hk'] using hv⟩

theorem getField_of_not_hasField {field : String} {body : Body}
    (h : hasField field body = false) : getField field body = none := by
  induction body with
  | nil => rfl
  | cons kv rest ih =>
    have hk : (kv.1 == field) = false := by
      by_contra hc
      simp [hasField, List.any_cons] at h
      exact hc (by simpa using h.1)
    have hr : hasField field rest = false := by
      simpa [hasField, List.any_cons, hk] using h
    simpa [getField, List.find?, hk] using ih hr

/-- The POST loop never returns a field: its condition is false at index 0. -/
theorem postLoop_requiredFields (body : Body) : postLoop body 0 requiredFields = none := by
  have h : jsLtIndexElem 0 (some "title") = false := by decide
  simp [requiredFields, postLoop, h]

/-- The PUT loop finds the first missing field, as the specification words it. -/
theorem putLoop_eq_firstMissing (body : Body) :
    putLoop body requiredFields = firstMissing body := by
  unfold firstMissing
  generalize requiredFields = fields
  induction fields with
  | nil => rfl
  | cons f rest ih =>
    by_cases hf : hasField f body = true
    · simp [putLoop, List.find?, hf, ih]
    · have hf' : hasField f body = false := by simpa using hf
      simp [putLoop, List.find?, hf']

theorem firstMissing_eq_none_iff (body : Body) : firstMissing body = none ↔ complete body := by
  simp [firstMissing, complete, requiredFields]

theorem strictEqStr_iff (pathId : String) (v : JsVal) :
    strictEqStr pathId v = true ↔ v = some (Json.str pathId) := by
  cases v with
  | none => simp [strictEqStr]
  | some j =>
    cases j <;> simp [strictEqStr]
    exact eq_comm

theorem router_put_of_firstMissing (pathId : String) (body : Body) (w : World) (field : String)
    (h : firstMissing body = some field) :
    router.put pathId body w
      = (Outcome.sent ⟨400, ResBody.text (missingMessage field)⟩,
          consoleError (missingMessage field) w) := by
  rw [← putLoop_eq_firstMissing] at h
  simp [router.put, h]

theorem router_put_of_accepted (pathId : String) (body : Body) (w : World)
    (hc : complete body) (hid : getField "id" body = some (Json.str pathId)) :
    router.put pathId body w
      = (Outcome.sent ⟨204, ResBody.empty⟩,
          BlogPosts.update
            ⟨pathId, getField "title" body, getField "content" body, getField "author" body⟩
            (consoleLog ("Updating blog bost `" ++ pathId ++ "`") w)) := by
  have hl : putLoop body requiredFields = none := by
    rw [putLoop_eq_firstMissing]; exact (firstMissing_eq_none_iff body).2 hc
  have hs : strictEqStr pathId (getField "id" body) = true := (strictEqStr_iff _ _).2 hid
  simp [router.put, hl, hs]

theorem router_put_of_mismatch (pathId : String) (body : Body) (w : World)
    (hc : complete body) (hid : getField "id" body ≠ some (Json.str pathId)) :
    router.put pathId body w
      = match JsVal.toStr (getField "id" body) with
        | none => (Outcome.threw JsError.typeError, w)
        | some bodyId =>
          (Outcome.sent ⟨400, ResBody.text (mismatchMessage pathId bodyId)⟩,
            consoleError (mismatchMessage pathId bodyId) w) := by
  have hl : putLoop body requiredFields = none := by
    rw [putLoop_eq_firstMissing]; exact (firstMissing_eq_none_iff body).2 hc
  have hs : strictEqStr pathId (getField "id" body) = false := by
    have : ¬ strictEqStr pathId (getField "id" body) = true :=
      fun h => hid ((strictEqStr_iff _ _).1 h)
    simpa using this
  simp [router.put, hl, hs]

/-- The status of a PUT response is 204 exactly when the body is complete and
its id is the path id as a string. -/
theorem router_put_status (pathId : String) (body : Body) (w : World) :
    (router.put pathId body w).1.status = some 204
      ↔ complete body ∧ getField "id" body = some (Json.str pathId) := by
  by_cases hc : complete body
  · by_cases hid : getField "id" body = some (Json.str pathId)
    · rw [router_put_of_accepted pathId body w hc hid]
      simp [Outcome.status, hc, hid]
    · rw [router_put_of_mismatch pathId body w hc hid]
      cases JsVal.toStr (getField "id" body) <;> simp [Outcome.status, hid]
  · have hm : firstMissing body ≠ none := fun h => hc ((firstMissing_eq_none_iff body).1 h)
    obtain ⟨field, hf⟩ := Option.ne_none_iff_exists'.1 hm
    rw [router_put_of_firstMissing pathId body w field hf]
    simp [Outcome.status, hc]

/-- A PUT that is not accepted throws when the body is complete and its id does
not print, and otherwise answers 400. -/
theorem router_put_not_accepted (pathId : String) (body : Body) (w : World)
    (h : ¬ (complete body ∧ getField "id" body = some (Json.str pathId))) :
    (complete body ∧ JsVal.toStr (getField "id" body) = none →
        router.put pathId body w = (Outcome.threw JsError.typeError, w))
      ∧ (¬ (complete body ∧ JsVal.toStr (getField "id" body) = none) →
        (router.put pathId body w).1.status = some 400) := by
  by_cases hc : complete body
  · have hid : getField "id" body ≠ some (Json.str pathId) := fun e => h ⟨hc, e⟩
    rw [router_put_of_mismatch pathId body w hc hid]
    cases hp : JsVal.toStr (getField "id" body) with
    | none => exact ⟨fun _ => rfl, fun hn => absurd ⟨hc, rfl⟩ hn⟩
    | some t => exact ⟨fun hn => by simp at hn, fun _ => rfl⟩
  · have hm : firstMissing body ≠ none := fun e => hc ((firstMissing_eq_none_iff body).1 e)
    obtain ⟨field, hf⟩ := Option.ne_none_iff_exists'.1 hm
    rw [router_put_of_firstMissing pathId body w field hf]
    exact ⟨fun hn => absurd hn.1 hc, fun _ => rfl⟩

/-! ## The POST handler -/

/-- C1 (as the code behaves): the POST handler never answers 400.  For every
body, the empty body included, it calls `BlogPosts.create` with the three
property reads, `undefined` for an absent field, and answers 201 with the post
created; the field check of its loop is never reached. -/
theorem post_never_rejects (now : Nat) (body : Body) (w : World) :
    (router.post now body w).1.status = 201
      ∧ (router.post now body w).2.calls
          = w.calls ++ [StoreCall.create (getField "title" body) (getField "content" body)
              (getField "author" body)]
      ∧ router.post now [] w
          = (⟨201, ResBody.jsonPost ⟨idOf w.store.nextId, none, none, none, now⟩⟩,
              ⟨⟨w.store.posts ++ [⟨idOf w.store.nextId, none, none, none, now⟩],
                  w.store.nextId + 1⟩,
                w.calls ++ [StoreCall.create none none none], w.console⟩) := by
  refine ⟨?_, ?_, ?_⟩
  · simp [router.post, postLoop_requiredFields]
  · simp [router.post, postLoop_requiredFields, BlogPosts.create]
  · simp [router.post, postLoop_requiredFields, BlogPosts.create, Store.create, getField]

/-- C2: for a body with title, content and author, the POST handler calls
`BlogPosts.create` exactly once, with the three values of the body, and answers
201 with the post that call returned: its title, content and author are those
of the request, its id is generated from the counter of the store, its publish
date is the clock reading, and its JSON representation has all five keys. -/
theorem post_complete_creates (now : Nat) (body : Body) (w : World) (h : complete body) :
    router.post now body w
        = (⟨201, ResBody.jsonPost
              (Store.create (getField "title" body) (getField "content" body)
                (getField "author" body) now w.store).1⟩,
            ⟨(Store.create (getField "title" body) (getField "content" body)
                (getField "author" body) now w.store).2,
              w.calls ++ [StoreCall.create (getField "title" body) (getField "content" body)
                (getField "author" body)],
              w.console⟩)
      ∧ ∀ item, (router.post now body w).1.body = ResBody.jsonPost item →
          item.title = getField "title" body ∧ item.content = getField "content" body
            ∧ item.author = getField "author" body
            ∧ item.id = idOf w.store.nextId ∧ item.publishDate = now
            ∧ ∀ key ∈ postKeys, hasField key item.toJson = true := by
  have hrun : router.post now body w
        = (⟨201, ResBody.jsonPost
              (Store.create (getField "title" body) (getField "content" body)
                (getField "author" body) now w.store).1⟩,
            ⟨(Store.create (getField "title" body) (getField "content" body)
                (getField "author" body) now w.store).2,
              w.calls ++ [StoreCall.create (getField "title" body) (getField "content" body)
                (getField "author" body)],
              w.console⟩) := by
    simp [router.post, postLoop_requiredFields, BlogPosts.create]
  refine ⟨hrun, ?_⟩
  intro item hitem
  rw [hrun] at hitem
  simp only [ResBody.jsonPost.injEq] at hitem
  subst hitem
  obtain ⟨t, ht⟩ := getField_of_hasField h.1
  obtain ⟨c, hc⟩ := getField_of_hasField h.2.1
  obtain ⟨a, ha⟩ := getField_of_hasField h.2.2
  refine ⟨rfl, rfl, rfl, rfl, rfl, ?_⟩
  intro key hkey
  simp only [postKeys, List.mem_cons, List.mem_singleton, List.not_mem_nil, or_false] at hkey
  rcases hkey with rfl | rfl | rfl | rfl | rfl <;>
    simp [Store.create, Post.toJson, hasField, ht, hc, ha]

/-- A complete body (the one of the test suite) is accepted by POST. -/
theorem post_complete_creates_witness :
    complete [("title", Json.str "Node.js in a nutshell"),
        ("content", Json.str "Lorem ipsum hey hey hey"), ("author", Json.str "Jane Dow")]
      ∧ (router.post 7 [("title", Json.str "Node.js in a nutshell"),
          ("content", Json.str "Lorem ipsum hey hey hey"), ("author", Json.str "Jane Dow")]
          (moduleLoad 3)).1.status = 201 :=
  ⟨by decide,
    by rw [(post_complete_creates 7 _ (moduleLoad 3) (by decide)).1]⟩

/-! ## The PUT handler -/

/-- C3 (as the code behaves): a PUT whose body has title, content and author
and the id `{"toString": null}` is not answered with 400: building the
mismatch message throws a `TypeError` before anything is sent.  For every
complete body whose id is not the path id as a string, `BlogPosts.update` is
not called, store and calls are as before, and the handler answers 400 with the
mismatch message exactly when the id prints (as the number 5 against the path
id "5" does) and throws when it does not. -/
theorem put_id_mismatch_400_or_throws (pathId : String) (body : Body) (w : World) :
    router.put pathId [("title", Json.str "t"), ("content", Json.str "c"),
          ("author", Json.str "a"), ("id", Json.obj [("toString", Json.null)])] w
        = (Outcome.threw JsError.typeError, w)
      ∧ router.put "5" [("title", Json.str "t"), ("content", Json.str "c"),
          ("author", Json.str "a"), ("id", Json.num "5")] w
        = (Outcome.sent
            ⟨400, ResBody.text "Request path id (5) and request body id (5) must match"⟩,
          consoleError "Request path id (5) and request body id (5) must match" w)
      ∧ (complete body → getField "id" body ≠ some (Json.str pathId) →
          (router.put pathId body w).2.store = w.store
            ∧ (router.put pathId body w).2.calls = w.calls
            ∧ (∀ bodyId, JsVal.toStr (getField "id" body) = some bodyId →
                router.put pathId body w
                  = (Outcome.sent ⟨400, ResBody.text (mismatchMessage pathId bodyId)⟩,
                      consoleError (mismatchMessage pathId bodyId) w))
            ∧ (JsVal.toStr (getField "id" body) = none →
                router.put pathId body w = (Outcome.threw JsError.typeError, w))) := by
  refine ⟨?_, ?_, ?_⟩
  · rw [router_put_of_mismatch pathId _ w (by decide) (by simp [getField, List.find?])]
    rfl
  · rw [router_put_of_mismatch "5" _ w (by decide) (by simp [getField, List.find?])]
    rfl
  · intro hc hid
    have hrun := router_put_of_mismatch pathId body w hc hid
    cases hp : JsVal.toStr (getField "id" body) with
    | none =>
      rw [hp] at hrun
      rw [hrun]
      exact ⟨rfl, rfl, fun bodyId hb => by simp at hb, fun _ => rfl⟩
    | some t =>
      rw [hp] at hrun
      rw [hrun]
      refine ⟨rfl, rfl, ?_, fun hn => by simp at hn⟩
      intro bodyId hb
      simp only [Option.some.injEq] at hb
      subst hb
      rfl

/-- C4 (as the code behaves): for a body with title, content and author whose
id is the path id, the PUT handler calls `BlogPosts.update` exactly once, with
the record of the path id and the title, content and author of the body, and
answers 204 with an empty body, and it answers 204 for these requests only.
Not every other request is answered with 400: a complete body whose id does not
print, such as `{"toString": null}`, makes the handler throw a `TypeError`
before it sends anything; every other request that is not accepted gets 400. -/
theorem put_204_iff_accepted_else_400_or_throws (pathId : String) (body : Body) (w : World) :
    (complete body ∧ getField "id" body = some (Json.str pathId) →
        router.put pathId body w
          = (Outcome.sent ⟨204, ResBody.empty⟩,
              ⟨Store.update ⟨pathId, getField "title" body, getField "content" body,
                  getField "author" body⟩ w.store,
                w.calls ++ [StoreCall.update ⟨pathId, getField "title" body,
                  getField "content" body, getField "author" body⟩],
                w.console ++ [ConsoleLine.log ("Updating blog bost `" ++ pathId ++ "`")]⟩))
      ∧ ((router.put pathId body w).1.status = some 204
          ↔ complete body ∧ getField "id" body = some (Json.str pathId))
      ∧ (¬ (complete body ∧ getField "id" body = some (Json.str pathId)) →
          (complete body ∧ JsVal.toStr (getField "id" body) = none →
              router.put pathId body w = (Outcome.threw JsError.typeError, w))
            ∧ (¬ (complete body ∧ JsVal.toStr (getField "id" body) = none) →
              (router.put pathId body w).1.status = some 400))
      ∧ (router.put pathId [("title", Json.str "t"), ("content", Json.str "c"),
          ("author", Json.str "a"), ("id", Json.arr [Json.obj [("toString", Json.null)]])]
          w).1.status = none
      ∧ router.put "0" [("id", Json.str "0"), ("title", Json.str "How to Node.js"),
          ("content", Json.str "lorem ipsum ho ho ho"), ("author", Json.str "Jane Doe"),
          ("publishDate", Json.num "3")] (moduleLoad 3)
        = (Outcome.sent ⟨204, ResBody.empty⟩,
          ⟨⟨[⟨"0", some (Json.str "How to Node.js"), some (Json.str "lorem ipsum ho ho ho"),
                some (Json.str "Jane Doe"), 3⟩], 1⟩,
            [StoreCall.create (some (Json.str "How to learn code"))
                (some (Json.str
                  "This is how you learn code. First, you learn it. Then, you do it"))
                (some (Json.str "Jane Doe")),
              StoreCall.update ⟨"0", some (Json.str "How to Node.js"),
                some (Json.str "lorem ipsum ho ho ho"), some (Json.str "Jane Doe")⟩],
            [ConsoleLine.log "Updating blog bost `0`"]⟩) := by
  refine ⟨?_, router_put_status pathId body w, router_put_not_accepted pathId body w, ?_, ?_⟩
  · rintro ⟨hc, hid⟩
    rw [router_put_of_accepted pathId body w hc hid]
    rfl
  · rw [router_put_of_mismatch pathId _ w (by decide) (by simp [getField, List.find?])]
    rfl
  · exact router_put_of_accepted "0" [("id", Json.str "0"), ("title", Json.str "How to Node.js"),
      ("content", Json.str "lorem ipsum ho ho ho"), ("author", Json.str "Jane Doe"),
      ("publishDate", Json.num "3")] (moduleLoad 3) (by decide) rfl

/-- C5: when the body lacks a required field, the PUT handler answers 400 with
the message "Missing `f` in request body", f being the first absent field in the
order title, content, author, whatever the path id and the body id are, and
does not call `BlogPosts.update`.  The field named is absent from the body: a
field present with any value, the empty string included, is never named. -/
theorem put_missing_field_rejected (pathId : String) (body : Body) (w : World)
    (field : String) (h : firstMissing body = some field) :
    router.put pathId body w
        = (Outcome.sent ⟨400, ResBody.text ("Missing `" ++ field ++ "` in request body")⟩,
            ⟨w.store, w.calls,
              w.console ++ [ConsoleLine.error ("Missing `" ++ field ++ "` in request body")]⟩)
      ∧ getField field body = none
      ∧ ∀ rest : Body, firstMissing ((field, Json.str "") :: rest) ≠ some field := by
  refine ⟨?_, ?_, ?_⟩
  · rw [router_put_of_firstMissing pathId body w field h]; rfl
  · have hf := List.find?_some h
    exact getField_of_not_hasField (by simpa using hf)
  · intro rest hrest
    have hf := List.find?_some hrest
    simp [hasField] at hf

/-- A body whose title is the empty string and whose content is absent is
rejected for its content, also when path id and body id agree. -/
theorem put_missing_field_rejected_witness :
    firstMissing [("title", Json.str ""), ("author", Json.str "a"), ("id", Json.str "0")]
        = some "content"
      ∧ (router.put "0" [("title", Json.str ""), ("author", Json.str "a"), ("id", Json.str "0")]
          (moduleLoad 3)).1
        = Outcome.sent ⟨400, ResBody.text "Missing `content` in request body"⟩ :=
  ⟨by decide,
    congrArg Prod.fst (put_missing_field_rejected "0" [("title", Json.str ""),
      ("author", Json.str "a"), ("id", Json.str "0")] (moduleLoad 3) "content" (by decide)).1⟩

/-! ## The DELETE and GET handlers -/

/-- C6: for every path id and every store, the DELETE handler calls
`BlogPosts.delete` exactly once, with the path id, and answers 204 with an
empty body, whether or not a post has that id. -/
theorem delete_always_204 (pathId : String) (w : World) :
    router.delete pathId w
      = (⟨204, ResBody.empty⟩,
          ⟨Store.delete pathId w.store, w.calls ++ [StoreCall.delete pathId],
            w.console ++ [ConsoleLine.log ("Delete shopping list item `" ++ pathId ++ "`")]⟩) :=
  rfl

/-- C7: for every store, the GET handler answers 200 with the sequence that
`BlogPosts.get` returns, all posts in insertion order (a created post comes
last), and leaves the store as it was; right after the module is loaded, which
makes one `BlogPosts.create` call, that sequence has at least one post,
and the JSON representation of each of its posts has the keys id, title,
content, author and publishDate. -/
theorem get_lists_store (w : World) (now : Nat) (title content author : JsVal) :
    router.get w
        = (⟨200, ResBody.jsonPosts (Store.get w.store)⟩,
            ⟨w.store, w.calls ++ [StoreCall.get], w.console⟩)
      ∧ Store.get (Store.create title content author now w.store).2
          = Store.get w.store ++ [(Store.create title content author now w.store).1]
      ∧ (moduleLoad now).calls
          = [StoreCall.create (some (Json.str "How to learn code"))
              (some (Json.str
                "This is how you learn code. First, you learn it. Then, you do it"))
              (some (Json.str "Jane Doe"))]
      ∧ 1 ≤ (Store.get (moduleLoad now).store).length
      ∧ (router.get (moduleLoad now)).1.body
          = ResBody.jsonPosts (Store.get (moduleLoad now).store)
      ∧ ∀ p ∈ Store.get (moduleLoad now).store, ∀ key ∈ postKeys,
          hasField key p.toJson = true := by
  refine ⟨rfl, rfl, rfl, ?_, rfl, ?_⟩
  · simp [moduleLoad, BlogPosts.create, Store.create, Store.get, World.initial, Store.empty]
  · intro p hp key hkey
    simp only [moduleLoad, BlogPosts.create, Store.create, Store.get, World.initial,
      Store.empty, List.nil_append, List.mem_singleton] at hp
    subst hp
    simp only [postKeys, List.mem_cons, List.mem_singleton, List.not_mem_nil, or_false] at hkey
    rcases hkey with rfl | rfl | rfl | rfl | rfl <;> simp [Post.toJson, hasField]

/-! ## Ids are decimal numerals: distinct counters give distinct ids -/

theorem digitChar_toNat (d : Nat) (h : d < 10) : (Nat.digitChar d).toNat - 48 = d := by
  interval_cases d <;> rfl

theorem numeralValue_toDigitsCore (fuel : Nat) :
    ∀ (n : Nat) (ds : List Char), n < fuel →
      numeralValue 0 (Nat.toDigitsCore 10 fuel n ds) = numeralValue n ds := by
  induction fuel with
  | zero => intro n ds h; omega
  | succ fuel ih =>
    intro n ds h
    have hd : (Nat.digitChar (n % 10)).toNat - 48 = n % 10 :=
      digitChar_toNat _ (Nat.mod_lt _ (by decide))
    by_cases h0 : n / 10 = 0
    · have hn : n % 10 = n := Nat.mod_eq_of_lt (by omega)
      rw [hn] at hd
      simp [Nat.toDigitsCore, h0, numeralValue, hn, hd]
    · have hlt : n / 10 < fuel := by omega
      have hrec := ih (n / 10) (Nat.digitChar (n % 10) :: ds) hlt
      have hn : 10 * (n / 10) + n % 10 = n := Nat.div_add_mod n 10
      simp only [Nat.toDigitsCore, h0, if_false]
      rw [hrec]
      simp [numeralValue, hd, hn]

theorem idOf_injective : Function.Injective idOf := by
  intro a b h
  have hl : Nat.toDigits 10 a = Nat.toDigits 10 b := by
    have h' : (Nat.toDigits 10 a).asString = (Nat.toDigits 10 b).asString := h
    exact congrArg String.data h'
  have ha : numeralValue 0 (Nat.toDigits 10 a) = numeralValue a [] :=
    numeralValue_toDigitsCore (a + 1) a [] (by omega)
  have hb : numeralValue 0 (Nat.toDigits 10 b) = numeralValue b [] :=
    numeralValue_toDigitsCore (b + 1) b [] (by omega)
  rw [hl, hb] at ha
  exact ha.symm

/-! ## Lemmas on the store operations -/

theorem replaceFirst_ids (r : UpdateRecord) (ps : List Post) :
    (replaceFirst r ps).map (fun p => p.id) = ps.map (fun p => p.id) := by
  induction ps with
  | nil => rfl
  | cons p ps ih =>
    by_cases h : p.id = r.id
    · simp [replaceFirst, h]
    · simp [replaceFirst, h, ih]

theorem replaceFirst_publishDates (r : UpdateRecord) (ps : List Post) :
    (replaceFirst r ps).map (fun p => p.publishDate) = ps.map (fun p => p.publishDate) := by
  induction ps with
  | nil => rfl
  | cons p ps ih =>
    by_cases h : p.id = r.id
    · simp [replaceFirst, h]
    · simp [replaceFirst, h, ih]

theorem map_withText_of_not_mem (r : UpdateRecord) (ps : List Post)
    (h : r.id ∉ ps.map (fun p => p.id)) :
    ps.map (fun p => if p.id = r.id then p.withText r.title r.content r.author else p) = ps := by
  induction ps with
  | nil => rfl
  | cons p ps ih =>
    simp only [List.map_cons, List.mem_cons, not_or] at h
    have hp : ¬ p.id = r.id := fun e => h.1 e.symm
    simp [hp, ih h.2]

/-- With pairwise distinct ids, replacing the first post of an id replaces the
post of that id. -/
theorem replaceFirst_eq_map (r : UpdateRecord) (ps : List Post)
    (h : (ps.map (fun p => p.id)).Nodup) :
    replaceFirst r ps
      = ps.map (fun p => if p.id = r.id then p.withText r.title r.content r.author else p) := by
  induction ps with
  | nil => rfl
  | cons p ps ih =>
    simp only [List.map_cons, List.nodup_cons] at h
    by_cases hp : p.id = r.id
    · have hnot : r.id ∉ ps.map (fun p => p.id) := hp ▸ h.1
      rw [replaceFirst, if_pos hp, List.map_cons, if_pos hp,
        map_withText_of_not_mem r ps hnot]
      rfl
    · simp [replaceFirst, hp, ih h.2]

theorem removeFirst_of_not_mem (id : String) (ps : List Post)
    (h : id ∉ ps.map (fun p => p.id)) : removeFirst id ps = ps := by
  induction ps with
  | nil => rfl
  | cons p ps ih =>
    simp only [List.map_cons, List.mem_cons, not_or] at h
    have hp : ¬ p.id = id := fun e => h.1 e.symm
    simp [removeFirst, hp, ih h.2]

theorem removeFirst_ids_sublist (id : String) (ps : List Post) :
    ((removeFirst id ps).map (fun p => p.id)).Sublist (ps.map (fun p => p.id)) := by
  induction ps with
  | nil => exact List.Sublist.refl _
  | cons p ps ih =>
    by_cases hp : p.id = id
    · simp [removeFirst, hp]
    · simpa [removeFirst, hp] using ih

/-- With pairwise distinct ids, removing the first post of an id removes every
post of that id. -/
theorem removeFirst_eq_filter (id : String) (ps : List Post)
    (h : (ps.map (fun p => p.id)).Nodup) :
    removeFirst id ps = ps.filter (fun p => decide (p.id ≠ id)) := by
  induction ps with
  | nil => rfl
  | cons p ps ih =>
    simp only [List.map_cons, List.nodup_cons] at h
    by_cases hp : p.id = id
    · have hnot : id ∉ ps.map (fun p => p.id) := hp ▸ h.1
      have hall : ps.filter (fun p => decide (p.id ≠ id)) = ps := by
        apply List.filter_eq_self.2
        intro q hq
        have : q.id ≠ id := fun e => hnot (e ▸ List.mem_map_of_mem (fun p => p.id) hq)
        simpa using this
      rw [removeFirst, if_pos hp, List.filter_cons, if_neg (by simp [hp]), hall]
    · simp [removeFirst, hp, ih h.2]

/-- The store after a PUT: updated on a 204, untouched otherwise. -/
theorem router_put_store (pathId : String) (body : Body) (w : World) :
    ((router.put pathId body w).1.status = some 204 →
        (router.put pathId body w).2.store
          = Store.update ⟨pathId, getField "title" body, getField "content" body,
              getField "author" body⟩ w.store)
      ∧ ((router.put pathId body w).1.status ≠ some 204 →
        (router.put pathId body w).2.store = w.store) := by
  by_cases hc : complete body
  · by_cases hid : getField "id" body = some (Json.str pathId)
    · rw [router_put_of_accepted pathId body w hc hid]
      exact ⟨fun _ => rfl, fun h => absurd rfl h⟩
    · rw [router_put_of_mismatch pathId body w hc hid]
      cases JsVal.toStr (getField "id" body) with
      | none => exact ⟨fun h => by simp [Outcome.status] at h, fun _ => rfl⟩
      | some t => exact ⟨fun h => by simp [Outcome.status] at h, fun _ => rfl⟩
  · have hm : firstMissing body ≠ none := fun h => hc ((firstMissing_eq_none_iff body).1 h)
    obtain ⟨field, hf⟩ := Option.ne_none_iff_exists'.1 hm
    rw [router_put_of_firstMissing pathId body w field hf]
    exact ⟨fun h => by simp [Outcome.status] at h, fun _ => rfl⟩

/-! ## A request followed by GET -/

/-- C8: in a store whose posts have pairwise distinct ids, one of them `i`,
after a PUT to path `i` that is accepted (204) a GET returns the former posts
in the same order, the post of id `i` carrying the title, content and author
of the request body and every other post unchanged; length, ids and publish
dates are as before, whatever the body holds besides the three fields. -/
theorem put_then_get_reflects (i : String) (body : Body) (w : World)
    (hmem : i ∈ w.store.ids) (huniq : w.store.ids.Nodup)
    (hacc : (router.put i body w).1.status = some 204) :
    (router.get (router.put i body w).2).1
        = ⟨200, ResBody.jsonPosts (w.store.posts.map (fun p =>
            if p.id = i then
              p.withText (getField "title" body) (getField "content" body)
                (getField "author" body)
            else p))⟩
      ∧ (Store.get (router.put i body w).2.store).length = (Store.get w.store).length
      ∧ (Store.get (router.put i body w).2.store).map (fun p => p.id)
          = (Store.get w.store).map (fun p => p.id)
      ∧ (Store.get (router.put i body w).2.store).map (fun p => p.publishDate)
          = (Store.get w.store).map (fun p => p.publishDate)
      ∧ ∃ p ∈ Store.get (router.put i body w).2.store,
          p.id = i ∧ p.title = getField "title" body ∧ p.content = getField "content" body
            ∧ p.author = getField "author" body := by
  have hstore := (router_put_store i body w).1 hacc
  have hmap := replaceFirst_eq_map
    ⟨i, getField "title" body, getField "content" body, getField "author" body⟩
    w.store.posts huniq
  have hposts : Store.get (router.put i body w).2.store
      = w.store.posts.map (fun p =>
          if p.id = i then
            p.withText (getField "title" body) (getField "content" body)
              (getField "author" body)
          else p) := by
    rw [hstore]
    exact hmap
  refine ⟨?_, ?_, ?_, ?_, ?_⟩
  · simp only [router.get, BlogPosts.get]
    rw [hposts]
  · rw [hposts, List.length_map]; rfl
  · rw [hstore]
    exact replaceFirst_ids _ _
  · rw [hstore]
    exact replaceFirst_publishDates _ _
  · rw [hposts]
    obtain ⟨q, hq, hqi⟩ := List.mem_map.1 hmem
    refine ⟨q.withText (getField "title" body) (getField "content" body)
      (getField "author" body), ?_, hqi, rfl, rfl, rfl⟩
    exact List.mem_map.2 ⟨q, hq, by simp [hqi]⟩

/-- After a POST, an update of the new post "1" whose body carries a publish
date 999: the stored date 5 stays, and the seeded post "0" is as before. -/
theorem put_then_get_reflects_witness :
    (router.get (router.put "1" [("id", Json.str "1"), ("title", Json.str "How to Node.js"),
        ("content", Json.str "lorem ipsum ho ho ho"), ("author", Json.str "Jane Doe"),
        ("publishDate", Json.num "999")]
        (serveAll [Request.post 5 [("title", Json.str "t"), ("content", Json.str "c"),
          ("author", Json.str "a")]] (moduleLoad 3))).2).1
      = ⟨200, ResBody.jsonPosts
          [⟨"0", some (Json.str "How to learn code"),
              some (Json.str "This is how you learn code. First, you learn it. Then, you do it"),
              some (Json.str "Jane Doe"), 3⟩,
            ⟨"1", some (Json.str "How to Node.js"), some (Json.str "lorem ipsum ho ho ho"),
              some (Json.str "Jane Doe"), 5⟩]⟩ :=
  (put_then_get_reflects "1" [("id", Json.str "1"), ("title", Json.str "How to Node.js"),
    ("content", Json.str "lorem ipsum ho ho ho"), ("author", Json.str "Jane Doe"),
    ("publishDate", Json.num "999")]
    (serveAll [Request.post 5 [("title", Json.str "t"), ("content", Json.str "c"),
      ("author", Json.str "a")]] (moduleLoad 3))
    (by decide) (by decide) (by decide)).1

/-- C9: in a store whose posts have pairwise distinct ids, after a DELETE to
path `i` a GET returns the former posts without the post of id `i`, the others
in the same order: no post of id `i` is left, nothing changes when `i` was
absent, and a second DELETE of `i` leaves the store of the first. -/
theorem delete_then_get_removes (i : String) (w : World) (huniq : w.store.ids.Nodup) :
    (router.get (router.delete i w).2).1
        = ⟨200, ResBody.jsonPosts (w.store.posts.filter (fun p => decide (p.id ≠ i)))⟩
      ∧ (∀ p ∈ Store.get (router.delete i w).2.store, p.id ≠ i)
      ∧ (i ∉ w.store.ids → Store.get (router.delete i w).2.store = Store.get w.store)
      ∧ (router.delete i (router.delete i w).2).2.store = (router.delete i w).2.store := by
  have hposts : Store.get (router.delete i w).2.store
      = w.store.posts.filter (fun p => decide (p.id ≠ i)) :=
    removeFirst_eq_filter i w.store.posts huniq
  have hnone : ∀ p ∈ Store.get (router.delete i w).2.store, p.id ≠ i := by
    intro p hp
    rw [hposts] at hp
    simpa using (List.mem_filter.1 hp).2
  refine ⟨?_, hnone, ?_, ?_⟩
  · simp only [router.get, BlogPosts.get]
    rw [hposts]
  · intro habs
    exact removeFirst_of_not_mem i w.store.posts habs
  · have hnot : i ∉ (Store.get (router.delete i w).2.store).map (fun p => p.id) := by
      intro hin
      obtain ⟨q, hq, hqi⟩ := List.mem_map.1 hin
      exact hnone q hq hqi
    have hagain := removeFirst_of_not_mem i _ hnot
    show (⟨removeFirst i (removeFirst i w.store.posts), w.store.nextId⟩ : Store)
      = ⟨removeFirst i w.store.posts, w.store.nextId⟩
    exact congrArg (fun ps => (⟨ps, w.store.nextId⟩ : Store)) hagain

/-- After two POSTs the store holds the posts "0", "1", "2"; deleting "1"
leaves "0" and "2" in that order. -/
theorem delete_then_get_removes_witness :
    (router.get (router.delete "1"
        (serveAll [Request.post 5 [("title", Json.str "t")], Request.post 6 []]
          (moduleLoad 3))).2).1
      = ⟨200, ResBody.jsonPosts
          [⟨"0", some (Json.str "How to learn code"),
              some (Json.str "This is how you learn code. First, you learn it. Then, you do it"),
              some (Json.str "Jane Doe"), 3⟩,
            ⟨"2", none, none, none, 6⟩]⟩ :=
  (delete_then_get_removes "1"
    (serveAll [Request.post 5 [("title", Json.str "t")], Request.post 6 []] (moduleLoad 3))
    (by decide)).1

/-! ## Ids along a sequence of requests -/

/-- How one request changes the store: not at all, by a `create`, by an
`update` or by a `delete`. -/
theorem serve_store_cases (req : Request) (w : World) :
    (serve req w).2.store = w.store
      ∨ (∃ t c a now, (serve req w).2.store = (Store.create t c a now w.store).2)
      ∨ (∃ r, (serve req w).2.store = Store.update r w.store)
      ∨ (∃ id, (serve req w).2.store = Store.delete id w.store) := by
  cases req with
  | get => exact Or.inl rfl
  | post now body =>
    refine Or.inr (Or.inl ⟨getField "title" body, getField "content" body,
      getField "author" body, now, ?_⟩)
    simp [serve, router.post, postLoop_requiredFields, BlogPosts.create]
  | put pathId body =>
    by_cases h : (router.put pathId body w).1.status = some 204
    · exact Or.inr (Or.inr (Or.inl ⟨_, (router_put_store pathId body w).1 h⟩))
    · exact Or.inl ((router_put_store pathId body w).2 h)
  | delete pathId => exact Or.inr (Or.inr (Or.inr ⟨pathId, rfl⟩))

theorem create_fresh (t c a : JsVal) (now : Nat) (s : Store) (hb : s.Bounded) :
    (Store.create t c a now s).1.id ∉ s.ids := by
  intro hin
  obtain ⟨n, hn, heq⟩ := hb _ hin
  have : s.nextId = n := idOf_injective heq
  omega

theorem create_ids (t c a : JsVal) (now : Nat) (s : Store) :
    (Store.create t c a now s).2.ids = s.ids ++ [idOf s.nextId] := by
  simp [Store.create, Store.ids]

theorem serve_nextId_le (req : Request) (w : World) :
    w.store.nextId ≤ (serve req w).2.store.nextId := by
  rcases serve_store_cases req w with h | ⟨t, c, a, now, h⟩ | ⟨r, h⟩ | ⟨id, h⟩ <;> rw [h]
  · simp [Store.create]
  · simp [Store.update]
  · simp [Store.delete]

theorem serve_bounded (req : Request) (w : World) (hb : w.store.Bounded) :
    (serve req w).2.store.Bounded := by
  rcases serve_store_cases req w with h | ⟨t, c, a, now, h⟩ | ⟨r, h⟩ | ⟨id, h⟩ <;> rw [h]
  · exact hb
  · intro x hx
    rw [create_ids] at hx
    rcases List.mem_append.1 hx with hx | hx
    · obtain ⟨n, hn, heq⟩ := hb x hx
      exact ⟨n, by simp only [Store.create]; omega, heq⟩
    · exact ⟨w.store.nextId, by simp [Store.create], by simpa using hx⟩
  · intro x hx
    have hids : (Store.update r w.store).ids = w.store.ids := replaceFirst_ids r w.store.posts
    rw [hids] at hx
    exact hb x hx
  · intro x hx
    have hsub : (Store.delete id w.store).ids.Sublist w.store.ids :=
      removeFirst_ids_sublist id w.store.posts
    exact hb x (hsub.subset hx)

theorem serve_nodup (req : Request) (w : World) (hb : w.store.Bounded)
    (hn : w.store.ids.Nodup) : (serve req w).2.store.ids.Nodup := by
  rcases serve_store_cases req w with h | ⟨t, c, a, now, h⟩ | ⟨r, h⟩ | ⟨id, h⟩ <;> rw [h]
  · exact hn
  · rw [create_ids]
    refine List.Nodup.append hn (List.nodup_singleton _) ?_
    intro x hx hx'
    rw [List.mem_singleton] at hx'
    subst hx'
    exact create_fresh t c a now w.store hb hx
  · have hids : (Store.update r w.store).ids = w.store.ids := replaceFirst_ids r w.store.posts
    rw [hids]
    exact hn
  · exact hn.sublist (removeFirst_ids_sublist id w.store.posts)

theorem serveAll_append (xs ys : List Request) (w : World) :
    serveAll (xs ++ ys) w = serveAll ys (serveAll xs w) := by
  induction xs generalizing w with
  | nil => rfl
  | cons x xs ih => exact ih (serve x w).2

theorem serveAll_invariant (reqs : List Request) (w : World)
    (hb : w.store.Bounded) (hn : w.store.ids.Nodup) :
    (serveAll reqs w).store.Bounded ∧ (serveAll reqs w).store.ids.Nodup
      ∧ w.store.nextId ≤ (serveAll reqs w).store.nextId := by
  induction reqs generalizing w with
  | nil => exact ⟨hb, hn, Nat.le_refl _⟩
  | cons req rest ih =>
    obtain ⟨h1, h2, h3⟩ := ih (serve req w).2 (serve_bounded req w hb) (serve_nodup req w hb hn)
    exact ⟨h1, h2, Nat.le_trans (serve_nextId_le req w) h3⟩

theorem moduleLoad_invariant (now : Nat) :
    (moduleLoad now).store.Bounded ∧ (moduleLoad now).store.ids.Nodup := by
  refine ⟨?_, ?_⟩
  · intro x hx
    refine ⟨0, by simp [moduleLoad, BlogPosts.create, Store.create, World.initial, Store.empty],
      ?_⟩
    simpa [moduleLoad, BlogPosts.create, Store.create, World.initial, Store.empty, Store.ids]
      using hx
  · simp [moduleLoad, BlogPosts.create, Store.create, World.initial, Store.empty, Store.ids]

/-- C10: in every store reached from the state right after module load by a
sequence of GET, POST, PUT and DELETE requests, the posts have pairwise
distinct ids; and a POST served then is answered with a post whose id is the id
of no post of the store at any earlier point of the sequence, whether or not
that post was deleted since. -/
theorem ids_distinct_and_never_reused (t0 : Nat) (earlier later : List Request)
    (now : Nat) (body : Body) :
    (serveAll (earlier ++ later) (moduleLoad t0)).store.ids.Nodup
      ∧ ∃ item,
          (router.post now body (serveAll (earlier ++ later) (moduleLoad t0))).1.body
              = ResBody.jsonPost item
            ∧ item.id ∉ (serveAll earlier (moduleLoad t0)).store.ids
            ∧ item.id ∉ (serveAll (earlier ++ later) (moduleLoad t0)).store.ids := by
  obtain ⟨hb0, hn0⟩ := moduleLoad_invariant t0
  obtain ⟨hb1, hn1, _⟩ := serveAll_invariant earlier (moduleLoad t0) hb0 hn0
  obtain ⟨hb2, hn2, hle⟩ := serveAll_invariant later (serveAll earlier (moduleLoad t0)) hb1 hn1
  rw [serveAll_append]
  refine ⟨hn2, (Store.create (getField "title" body) (getField "content" body)
    (getField "author" body) now
    (serveAll later (serveAll earlier (moduleLoad t0))).store).1, ?_, ?_, ?_⟩
  · simp [router.post, postLoop_requiredFields, BlogPosts.create]
  · intro hin
    obtain ⟨n, hlt, heq⟩ := hb1 _ hin
    have : (serveAll later (serveAll earlier (moduleLoad t0))).store.nextId = n :=
      idOf_injective heq
    omega
  · exact create_fresh _ _ _ now _ hb2

end BlogApi
